import Mathlib

/-!
# smtp2tg: routing, queueing and delivery with fallback

A shallow embedding of `main.go` of smtp2tg (a mail to Telegram gateway) and
theorems about its intake handler (`mailHandler`), its drain loop
(`handleQueue`) and its fallback relay (`mailFallback`).

Modelling conventions.

* A Go `string` is a Lean `String` whose characters stand for the bytes of the
  Go string; a `[]byte` is a `List UInt8`. The only cutset the program trims
  with is ASCII, so trimming characters is trimming bytes.
* An `int64` is an `Int`; the program does no arithmetic on chat ids, and
  `ParseInt` checks the 64 bit range as `strconv.ParseInt` does.
* A Go `map` is an association list with unique keys (`GoMap`); reading a
  missing key gives the zero value, as in Go.
* A buffered channel is the list of the items it holds, oldest first, with the
  capacity `QueueLength`.
* `strings.Trim` and `strconv.ParseInt` are modelled by the definitions `Trim`
  and `ParseInt`. The MIME parser, the Telegram client and the SMTP client are
  parameters collected in `Env`; a parsed message is the list of its leaf
  parts in document order, and every call to the Telegram client or the SMTP
  client is recorded in a trace (`LoopState.calls`).
* The intake handler and the drain loop run in different goroutines. Here a call
  of the intake handler and a visit of a queue by the drain loop are steps that
  follow one another; a channel send that cannot proceed is an outcome of the
  handler (`Status.blockedFull`, `Status.blockedNil`).
* The iteration order of `range` over a map is not fixed by Go: the loop of
  `main` runs over the raw receivers in the order of the list, which is any
  order, and a drain pass takes its visiting order as an argument.
-/

namespace Smtp2tg

/-! ## Go maps -/

/-- A Go map: an association list, read by first match. -/
abbrev GoMap (κ : Type) (ν : Type) := List (κ × ν)

namespace GoMap

variable {κ ν : Type} [DecidableEq κ]

/-- The comma-ok read `v, ok := m[k]`. -/
def get? : GoMap κ ν → κ → Option ν
  | [], _ => none
  | (k0, v0) :: rest, k => if k0 = k then some v0 else get? rest k

/-- The plain read `m[k]`: the zero value `zero` on a missing key. -/
def get (m : GoMap κ ν) (k : κ) (zero : ν) : ν :=
  (m.get? k).getD zero

/-- The assignment `m[k] = v`: replaces the entry of `k`, or adds one. -/
def set : GoMap κ ν → κ → ν → GoMap κ ν
  | [], k, v => [(k, v)]
  | (k0, v0) :: rest, k, v =>
    if k0 = k then (k, v) :: rest else (k0, v0) :: set rest k v

/-- The keys of the map. -/
def keys (m : GoMap κ ν) : List κ := m.map Prod.fst

/-- The values of the map. -/
def values (m : GoMap κ ν) : List ν := m.map Prod.snd

end GoMap

/-! ## Library functions -/

/-- The bytes of a Go string conversion `string(b)`: one character per byte. -/
def bytesToString (b : List UInt8) : String :=
  String.mk (b.map (fun u => Char.ofNat u.toNat))

/-- Go `strings.Trim(s, cutset)`: `s` without its leading and trailing
characters that occur in `cutset`. -/
def Trim (s : String) (cutset : String) : String :=
  let drop := fun (l : List Char) => l.dropWhile (fun c => cutset.toList.contains c)
  String.mk (drop (drop s.toList).reverse).reverse

/-- The value of a decimal digit, `none` for any other character. -/
def digitVal (c : Char) : Option Nat :=
  if 48 ≤ c.toNat ∧ c.toNat ≤ 57 then some (c.toNat - 48) else none

/-- The unsigned decimal number read from the digits, most significant first;
`none` when a character is not a digit. -/
def parseDigits : List Char → Nat → Option Nat
  | [], acc => some acc
  | c :: cs, acc =>
    match digitVal c with
    | none => none
    | some d => parseDigits cs (acc * 10 + d)

/-- Go `strconv.ParseInt(s, 10, 64)`: an optional sign and at least one decimal
digit, in the range of `int64`; `none` stands for a non-nil error. -/
def ParseInt (s : String) : Option Int :=
  let body : Bool × List Char :=
    match s.toList with
    | [] => (false, [])
    | c :: cs =>
      if c = '+' then (false, cs)
      else if c = '-' then (true, cs)
      else (false, c :: cs)
  match body with
  | (_, []) => none
  | (neg, c :: cs) =>
    match parseDigits (c :: cs) 0 with
    | none => none
    | some un =>
      if neg then
        if un > 2 ^ 63 then none else some (-(un : Int))
      else
        if un ≥ 2 ^ 63 then none else some (un : Int)

/-! ## Data model -/

/-- The capacity of every destination queue. -/
def QueueLength : Nat := 500

deriving instance DecidableEq for Except

/-- One MIME part of a parsed message, as far as the program looks at it: its
media type, its body, and the result of `Header.ContentDisposition()`
(the disposition and its parameters, or an error text). -/
structure Part where
  contentType : String
  Body : List UInt8
  contentDisposition : Except String (String × GoMap String String)
deriving DecidableEq

/-- A parsed `email.Message`, as far as the program looks at it: its header
fields and its parts in document order. -/
structure Message where
  Header : GoMap String String
  parts : List Part
deriving DecidableEq

/-- The library call `Header.Get(key)`: the field, or the empty string. -/
def Message.headerGet (m : Message) (key : String) : String :=
  GoMap.get m.Header key ""

/-- The library call `msg.MessagesContentTypePrefix(p)`: the parts whose
media type starts with `p`, in document order. -/
def Message.MessagesContentTypePrefix (m : Message) (p : String) : List Part :=
  m.parts.filter (fun part => p.toList.isPrefixOf part.contentType.toList)

/-- The work item `QueueItem`. -/
structure QueueItem where
  from_ : String
  to_ : List String
  msg : Message
  data : List UInt8
deriving DecidableEq

/-- The global `queues`: one channel per chat id, a channel being the list of
the items it holds, oldest first. -/
abbrev Queues := GoMap Int (List QueueItem)

/-- The global `receivers`: the routing table. -/
abbrev Receivers := GoMap String Int

/-! ## Startup: the part of `main` that builds the routing table and the queues -/

/-- The configuration as `main` reads it through viper, with the outcome of the
two start-up calls that can fail outside the program. -/
structure Config where
  /-- The setting `logging.file`. -/
  logFile : String
  /-- Whether `os.OpenFile` opens the log file. -/
  logFileOpens : Bool
  /-- The setting `logging.debug`. -/
  debug : Bool
  /-- The table `receivers`, as `viper.GetStringMapString` returns it. -/
  receivers : GoMap String String
  /-- The setting `bot.token`. -/
  botToken : String
  /-- The setting `smtp.listen`. -/
  smtpListen : String
  /-- The setting `smtp.name`. -/
  smtpName : String
  /-- Whether `tgbotapi.NewBotAPI` returns a bot. -/
  botAuthorizes : Bool
  /-- The setting `fallback.host`, `none` when it is not set. -/
  fallbackHost : Option String
  /-- The setting `fallback.port`. -/
  fallbackPort : String
deriving DecidableEq

/-- The globals that `main` has set when it starts the queue handler and the
SMTP server. -/
structure Globals where
  receivers : Receivers
  queues : Queues
  debug : Bool
  isFallback : Bool
deriving DecidableEq

/-- The loop of `main` over `rawReceivers` (lines 72 to 80): every chat id is
parsed, the address is routed to it and a fresh channel is made for it. `none`
is the `return` on an id that is not an `int64`. -/
def loadReceivers : GoMap String String → Receivers → Queues → Option (Receivers × Queues)
  | [], receivers, queues => some (receivers, queues)
  | (address, tgid) :: rest, receivers, queues =>
    match ParseInt tgid with
    | none => none
    | some i => loadReceivers rest (GoMap.set receivers address i) (GoMap.set queues i [])

/-- The start-up of `main`, up to the point where the queue handler and the
SMTP server start. `none` stands for every way in which `main` ends before
that point (`log.Fatal` or `return`). -/
def main (cfg : Config) : Option Globals :=
  if cfg.logFile ≠ "" ∧ cfg.logFileOpens = false then none
  else if GoMap.get cfg.receivers "*" "" = "" then none
  else
    match loadReceivers cfg.receivers [] [] with
    | none => none
    | some (receivers, queues) =>
      if cfg.botToken = "" then none
      else if cfg.smtpListen = "" then none
      else if cfg.smtpName = "" then none
      else if cfg.botAuthorizes = false then none
      else some
        { receivers := receivers
          queues := queues
          debug := cfg.debug
          isFallback := cfg.fallbackHost.isSome }

/-! ## The intake handler -/

/-- The calls the program makes to the outside: a text post and a photo upload
through `bot.Send`, and a submission through `smtp.SendMail`. -/
inductive Call where
  | sendMessage (chatID : Int) (text : String) (parseMode : String)
  | sendPhoto (chatID : Int) (name : String) (bytes : List UInt8) (caption : String)
      (disableNotification : Bool)
  | sendMail (addr : String) (from_ : String) (to_ : List String) (data : List UInt8)
deriving DecidableEq

/-- The libraries and the outside world. -/
structure Env where
  /-- The library call `email.ParseMessage`. -/
  ParseMessage : List UInt8 → Except String Message
  /-- The error an outside call returns, given the calls made before it;
  `none` is a nil error. -/
  respond : List Call → Call → Option String
  /-- The setting `fallback.host`, read when the relay is used. -/
  fallbackHost : String
  /-- The setting `fallback.port`, read when the relay is used. -/
  fallbackPort : String

/-- How a call of the intake handler ends. -/
inductive Status where
  /-- The handler returned. -/
  | returned
  /-- A run-time error stopped the handler. -/
  | panicked
  /-- The handler waits at the channel send: the channel is full. -/
  | blockedFull
  /-- The handler waits at the channel send for ever: there is no channel. -/
  | blockedNil
deriving DecidableEq

/-- The outcome of one call of the intake handler. -/
structure HandlerOutcome where
  status : Status
  queues : Queues
  log : List String
deriving DecidableEq

/-- What a channel send `queues[id] <- item` does when it is reached. -/
inductive SendResult where
  /-- The item is at the tail of the channel. -/
  | sent (queues : Queues)
  /-- The channel holds `QueueLength` items: the sender waits. -/
  | full
  /-- The map has no channel for the id: the sender waits for ever. -/
  | nilChan
deriving DecidableEq

/-- The channel send `queues[id] <- item`. -/
def chanSend (queues : Queues) (id : Int) (item : QueueItem) : SendResult :=
  match GoMap.get? queues id with
  | none => .nilChan
  | some items =>
    if items.length < QueueLength then .sent (GoMap.set queues id (items ++ [item]))
    else .full

/-- Lines 139 to 142 of `mailHandler`: the chat id of the sender, and the one
of `"*"` when that is zero. -/
def resolveTgid (receivers : Receivers) (from_ : String) : Int :=
  let tgid := GoMap.get receivers from_ 0
  if tgid = 0 then GoMap.get receivers "*" 0 else tgid

/-- The intake handler `mailHandler`. -/
def mailHandler (env : Env) (receivers : Receivers) (queues : Queues)
    (from_ : String) (to_ : List String) (data : List UInt8) : HandlerOutcome :=
  let from_ := Trim from_ " ><"
  match to_ with
  | [] => { status := .panicked, queues := queues, log := [] }
  | to0 :: rest =>
    let to_ := Trim to0 " ><" :: rest
    match env.ParseMessage data with
    | .error e => { status := .returned, queues := queues, log := ["[MAIL ERROR]: " ++ e] }
    | .ok msg =>
      let subject := msg.headerGet "Subject"
      let log1 := ["Received mail from \x27" ++ from_ ++ "\x27 for \x27" ++ Trim to0 " ><"
        ++ "\x27 with subject \x27" ++ subject ++ "\x27"]
      let tgid := resolveTgid receivers from_
      let textMsgs := msg.MessagesContentTypePrefix "text"
      let images := msg.MessagesContentTypePrefix "image"
      if textMsgs.length = 0 ∧ images.length = 0 then
        { status := .returned, queues := queues
          log := log1 ++ ["mail doesn\x27t contain text or image"] }
      else
        let log2 := log1 ++ ["Relaying message to: " ++ toString tgid]
        let item : QueueItem := { from_ := from_, to_ := to_, msg := msg, data := data }
        match chanSend queues tgid item with
        | .nilChan => { status := .blockedNil, queues := queues, log := log2 }
        | .full => { status := .blockedFull, queues := queues, log := log2 }
        | .sent queues1 => { status := .returned, queues := queues1, log := log2 }

/-! ## The drain loop -/

/-- The state the drain loop works on: the queues, the calls made to the
outside so far, the log, the counter `queueLength` of the current pass, and the
history of the items received from the channels (with their chat id). -/
structure LoopState where
  queues : Queues
  calls : List Call
  log : List String
  queueLength : Nat
  dequeued : List (Int × QueueItem)
deriving DecidableEq

/-- One more line in the log. -/
def LoopState.printf (st : LoopState) (line : String) : LoopState :=
  { st with log := st.log ++ [line] }

/-- One more call to the outside; the result is the state and the error. -/
def LoopState.call (env : Env) (st : LoopState) (c : Call) : LoopState × Option String :=
  ({ st with calls := st.calls ++ [c] }, env.respond st.calls c)

/-- The fallback relay `mailFallback`. -/
def mailFallback (env : Env) (isFallback : Bool) (from_ : String) (to_ : List String)
    (data : List UInt8) (st : LoopState) : LoopState :=
  if isFallback = false then st
  else
    let st1 := st.printf "Sending to fallback email"
    match st1.call env (.sendMail (env.fallbackHost ++ ":" ++ env.fallbackPort) from_ to_ data) with
    | (st2, some e) => st2.printf ("[ERROR]: fallback mail send%!(EXTRA string=" ++ e ++ ")")
    | (st2, none) => st2

/-- The loop over the image parts (lines 191 to 208 of `handleQueue`). -/
def sendImages (env : Env) (id : Int) : List Part → LoopState → LoopState
  | [], st => st
  | part :: rest, st =>
    match part.contentDisposition with
    | .error e =>
      sendImages env id rest (st.printf ("[ERROR]: content disposition parse: \x27" ++ e ++ "\x27"))
    | .ok (_, params) =>
      let text := GoMap.get params "filename" ""
      match st.call env (.sendPhoto id text part.Body text true) with
      | (st1, some e) =>
        sendImages env id rest (st1.printf ("[ERROR]: telegram photo send: \x27" ++ e ++ "\x27"))
      | (st1, none) => sendImages env id rest st1

/-- The delivery of one received item (lines 174 to 208 of `handleQueue`). -/
def deliver (env : Env) (isFallback : Bool) (id : Int) (item : QueueItem)
    (st : LoopState) : LoopState :=
  let subject := item.msg.headerGet "Subject"
  let textMsgs := item.msg.MessagesContentTypePrefix "text"
  let images := item.msg.MessagesContentTypePrefix "image"
  match textMsgs with
  | first :: _ =>
    let bodyStr := "*" ++ subject ++ "*\n\n" ++ bytesToString first.Body
    match st.call env (.sendMessage id bodyStr "Markdown") with
    | (st1, some e) =>
      mailFallback env isFallback item.from_ item.to_ item.data
        (st1.printf ("[ERROR]: telegram message send: \x27" ++ e ++ "\x27"))
    | (st1, none) => sendImages env id images st1
  | [] => sendImages env id images st

/-- The body of the loop over the queues (lines 166 to 208): the receive that
does not wait, and the delivery of the item received. -/
def handleEntry (env : Env) (isFallback : Bool) (st : LoopState) (id : Int) : LoopState :=
  match GoMap.get? st.queues id with
  | none => st
  | some [] => st
  | some (item :: rest) =>
    deliver env isFallback id item
      { st with
        queues := GoMap.set st.queues id rest
        queueLength := st.queueLength + rest.length
        dequeued := st.dequeued ++ [(id, item)] }

/-- One pass of `handleQueue` (lines 164 to 214) that visits the queues in the
order `order`; the result is the state and the new `prevQueueLength`. -/
def handleQueuePass (env : Env) (isFallback : Bool) (order : List Int)
    (st : LoopState) (prevQueueLength : Nat) : LoopState × Nat :=
  let st1 := order.foldl (handleEntry env isFallback) { st with queueLength := 0 }
  if prevQueueLength ≠ st1.queueLength then
    (st1.printf ("[INFO]: pending messages: " ++ toString st1.queueLength), st1.queueLength)
  else (st1, prevQueueLength)

/-- The passes of `handleQueue`, one for each visiting order in `orders`. -/
def handleQueue (env : Env) (isFallback : Bool) :
    List (List Int) → LoopState → Nat → LoopState × Nat
  | [], st, prev => (st, prev)
  | order :: orders, st, prev =>
    let r := handleQueuePass env isFallback order st prev
    handleQueue env isFallback orders r.1 r.2

/-! ## Runs: arrivals and passes interleaved -/

/-- A step of the running program, seen from the queues: a channel send by an
intake handler, or a pass of the drain loop with its visiting order. -/
inductive Step where
  | send (id : Int) (item : QueueItem)
  | pass (order : List Int)
deriving DecidableEq

/-- The state of a run: the loop state, `prevQueueLength`, and the history of
the sends that put an item into a channel. -/
structure Sys where
  loop : LoopState
  prev : Nat
  arrived : List (Int × QueueItem)
deriving DecidableEq

/-- One step of a run. A send that cannot proceed leaves the state as it is. -/
def Sys.step (env : Env) (isFallback : Bool) (sys : Sys) : Step → Sys
  | .send id item =>
    match chanSend sys.loop.queues id item with
    | .sent queues1 =>
      { sys with
        loop := { sys.loop with queues := queues1 }
        arrived := sys.arrived ++ [(id, item)] }
    | .full => sys
    | .nilChan => sys
  | .pass order =>
    let r := handleQueuePass env isFallback order sys.loop sys.prev
    { sys with loop := r.1, prev := r.2 }

/-- A run: the steps taken one after the other. -/
def Sys.run (env : Env) (isFallback : Bool) (sys : Sys) (steps : List Step) : Sys :=
  steps.foldl (Sys.step env isFallback) sys

/-- The items of a tagged history that belong to the chat id `id`. -/
def itemsFor (id : Int) (h : List (Int × QueueItem)) : List QueueItem :=
  (h.filter (fun p => p.1 = id)).map Prod.snd

/-- The content of the channel of `id` (empty when there is none). -/
def queueOf (queues : Queues) (id : Int) : List QueueItem :=
  GoMap.get queues id []

/-! ## What the drain loop is expected to submit -/

/-- The text post for a work item: the subject in asterisks, an empty line and
the body of the first textual part; `none` when there is no textual part. -/
def textPost (id : Int) (item : QueueItem) : Option Call :=
  match item.msg.MessagesContentTypePrefix "text" with
  | first :: _ =>
    some (.sendMessage id
      ("*" ++ item.msg.headerGet "Subject" ++ "*\n\n" ++ bytesToString first.Body) "Markdown")
  | [] => none

/-- The upload for an image part whose content disposition parses: name and
caption are the `filename` parameter (empty when there is none), and the
notification is off; `none` when the content disposition does not parse. -/
def uploadOf (id : Int) (part : Part) : Option Call :=
  match part.contentDisposition with
  | .error _ => none
  | .ok (_, params) =>
    some (.sendPhoto id (GoMap.get params "filename" "") part.Body
      (GoMap.get params "filename" "") true)

/-! ## Sample data -/

/-- An image part with a content disposition that has no `filename`. -/
def unnamedImage : Part :=
  { contentType := "image/png", Body := [1], contentDisposition := .ok ("inline", []) }

/-- An image part with a content disposition that names the file `b.png`. -/
def namedImage : Part :=
  { contentType := "image/png", Body := [2]
    contentDisposition := .ok ("attachment", [("filename", "b.png")]) }

/-- An image part whose content disposition does not parse. -/
def brokenImage : Part :=
  { contentType := "image/jpeg", Body := [3]
    contentDisposition := .error "mime: no media type" }

/-- A message with two image parts, the first without a file name. -/
def twoImagesMessage : Message :=
  { Header := [("Subject", "Pictures")], parts := [unnamedImage, namedImage] }

/-- A message with a textual part and three image parts, the first of them
with a content disposition that does not parse. -/
def textAndImagesMessage : Message :=
  { Header := [("Subject", "Hi")]
    parts := [{ contentType := "text/plain", Body := [116, 104, 101, 114, 101],
                contentDisposition := .error "no content disposition" },
              brokenImage, unnamedImage, namedImage] }

/-- An outside world where the parser returns `msg` for every input, every
text post fails and every other call succeeds. -/
def textFailsEnv (msg : Message) : Env :=
  { ParseMessage := fun _ => .ok msg
    respond := fun _ c =>
      match c with
      | .sendMessage _ _ _ => some "Bad Gateway"
      | _ => none
    fallbackHost := "relay.example"
    fallbackPort := "25" }

/-- An outside world where the parser returns `msg` for every input, every
photo upload fails and every other call succeeds. -/
def photoFailsEnv (msg : Message) : Env :=
  { ParseMessage := fun _ => .ok msg
    respond := fun _ c =>
      match c with
      | .sendPhoto _ _ _ _ _ => some "Request Entity Too Large"
      | _ => none
    fallbackHost := "relay.example"
    fallbackPort := "25" }

/-- A work item that carries `msg`. -/
def sampleItem (msg : Message) : QueueItem :=
  { from_ := "a@example.com", to_ := ["b@example.com"], msg := msg, data := [1, 2, 3] }

/-- The loop state with the given queues and nothing done yet. -/
def freshLoop (queues : Queues) : LoopState :=
  { queues := queues, calls := [], log := [], queueLength := 0, dequeued := [] }


/-- A message with one textual part and no image. -/
def sampleTextMessage : Message :=
  { Header := [("Subject", "Hi")]
    parts := [{ contentType := "text/plain", Body := [116, 104, 101, 114, 101],
                contentDisposition := .error "no content disposition" }] }

/-- A message whose only part is neither text nor image. -/
def sampleOtherMessage : Message :=
  { Header := [("Subject", "Report")]
    parts := [{ contentType := "application/pdf", Body := [37, 80, 68, 70],
                contentDisposition := .ok ("attachment", [("filename", "r.pdf")]) }] }

/-- An outside world where the parser returns `msg` for every input and every
call to the outside succeeds. -/
def sampleEnv (msg : Message) : Env :=
  { ParseMessage := fun _ => .ok msg
    respond := fun _ _ => none
    fallbackHost := "relay.example"
    fallbackPort := "25" }

/-- A configuration that routes one sender to the chat id `0`. -/
def zeroIdConfig : Config :=
  { logFile := "", logFileOpens := false, debug := false
    receivers := [("*", "100"), ("boss@example.com", "0")]
    botToken := "t", smtpListen := "127.0.0.1:25", smtpName := "mx"
    botAuthorizes := true, fallbackHost := none, fallbackPort := "" }

/-- An older and a newer work item for the same chat. -/
def olderItem : QueueItem :=
  { from_ := "a@example.com", to_ := ["b@example.com"], msg := sampleTextMessage, data := [1] }

/-- The newer of the two work items. -/
def newerItem : QueueItem :=
  { from_ := "c@example.com", to_ := ["b@example.com"], msg := sampleTextMessage, data := [2] }

/-! ## Facts about Go maps -/

namespace GoMap

variable {κ ν : Type} [DecidableEq κ]

theorem get?_set_self (m : GoMap κ ν) (k : κ) (v : ν) : get? (set m k v) k = some v := by
  induction m with
  | nil => simp [set, get?]
  | cons e rest ih =>
    obtain ⟨k0, v0⟩ := e
    by_cases h : k0 = k
    · simp [set, get?, h]
    · simp [set, get?, h, ih]

theorem get?_set_ne (m : GoMap κ ν) {k k1 : κ} (v : ν) (h : k ≠ k1) :
    get? (set m k v) k1 = get? m k1 := by
  induction m with
  | nil => simp [set, get?, h]
  | cons e rest ih =>
    obtain ⟨k0, v0⟩ := e
    by_cases h0 : k0 = k
    · subst h0
      simp [set, get?, h]
    · by_cases h1 : k0 = k1
      · subst h1
        simp [set, get?, h0]
      · simp [set, get?, h0, h1, ih]

theorem get?_eq_none_iff (m : GoMap κ ν) (k : κ) : get? m k = none ↔ k ∉ keys m := by
  induction m with
  | nil => simp [get?, keys]
  | cons e rest ih =>
    obtain ⟨k0, v0⟩ := e
    by_cases h : k0 = k
    · simp [get?, keys, h]
    · have hk : ¬ k = k0 := fun hh => h hh.symm
      simpa [get?, keys, h, hk] using ih

theorem mem_values_of_get? {m : GoMap κ ν} {k : κ} {v : ν} (h : get? m k = some v) :
    v ∈ values m := by
  induction m with
  | nil => simp [get?] at h
  | cons e rest ih =>
    obtain ⟨k0, v0⟩ := e
    by_cases h0 : k0 = k
    · simp [get?, h0] at h
      simp [values, h]
    · simp only [get?, h0, if_false] at h
      have := ih h
      simp only [values, List.map_cons, List.mem_cons] at this ⊢
      exact Or.inr this

theorem keys_set_of_mem (m : GoMap κ ν) (k : κ) (v : ν) (h : k ∈ keys m) :
    keys (set m k v) = keys m := by
  induction m with
  | nil => simp [keys] at h
  | cons e rest ih =>
    obtain ⟨k0, v0⟩ := e
    by_cases h0 : k0 = k
    · simp [set, keys, h0]
    · have hk : k ∈ keys rest := by
        have hne : ¬ k = k0 := fun hh => h0 hh.symm
        simpa [keys, hne] using h
      have := ih hk
      simp only [keys] at this
      simp [set, keys, h0, this]

theorem keys_set_of_not_mem (m : GoMap κ ν) (k : κ) (v : ν) (h : k ∉ keys m) :
    keys (set m k v) = keys m ++ [k] := by
  induction m with
  | nil => simp [set, keys]
  | cons e rest ih =>
    obtain ⟨k0, v0⟩ := e
    have h0 : ¬ k0 = k := by
      intro hh
      apply h
      simp [keys, hh]
    have hk : k ∉ keys rest := by
      intro hh
      apply h
      simp only [keys, List.map_cons, List.mem_cons]
      exact Or.inr hh
    have := ih hk
    simp only [keys] at this
    simp [set, keys, h0, this]

theorem mem_keys_set (m : GoMap κ ν) (k k1 : κ) (v : ν) :
    k1 ∈ keys (set m k v) ↔ k1 = k ∨ k1 ∈ keys m := by
  by_cases h : k ∈ keys m
  · rw [keys_set_of_mem m k v h]
    constructor
    · exact Or.inr
    · rintro (rfl | h1)
      · exact h
      · exact h1
  · rw [keys_set_of_not_mem m k v h]
    simp [or_comm]

theorem nodup_keys_set (m : GoMap κ ν) (k : κ) (v : ν) (h : (keys m).Nodup) :
    (keys (set m k v)).Nodup := by
  by_cases hk : k ∈ keys m
  · rw [keys_set_of_mem m k v hk]
    exact h
  · rw [keys_set_of_not_mem m k v hk]
    exact List.Nodup.append h (List.nodup_singleton k) (by simpa using hk)

theorem mem_values_set {m : GoMap κ ν} {k : κ} {v v1 : ν} (h : v1 ∈ values (set m k v)) :
    v1 = v ∨ v1 ∈ values m := by
  induction m with
  | nil => simpa [set, values] using h
  | cons e rest ih =>
    obtain ⟨k0, v0⟩ := e
    by_cases h0 : k0 = k
    · simp only [set, h0, if_true, values, List.map_cons, List.mem_cons] at h ⊢
      rcases h with h | h
      · exact Or.inl h
      · exact Or.inr (Or.inr h)
    · simp only [set, h0, if_false, values, List.map_cons, List.mem_cons] at h ⊢
      rcases h with h | h
      · exact Or.inr (Or.inl h)
      · rcases ih h with h | h
        · exact Or.inl h
        · exact Or.inr (Or.inr h)

end GoMap

/-! ## Start-up -/

/-- What the loop over the raw receivers keeps: the queues have one channel
per id, and every id of the routing table has a channel. -/
theorem loadReceivers_invariant (raw : GoMap String String) :
    ∀ (receivers : Receivers) (queues : Queues) (r : Receivers) (q : Queues),
      loadReceivers raw receivers queues = some (r, q) →
      (GoMap.keys queues).Nodup →
      (∀ id ∈ GoMap.values receivers, id ∈ GoMap.keys queues) →
      (GoMap.keys q).Nodup ∧ (∀ id ∈ GoMap.values r, id ∈ GoMap.keys q) := by
  induction raw with
  | nil =>
    intro receivers queues r q h hnd hin
    simp only [loadReceivers, Option.some.injEq, Prod.mk.injEq] at h
    obtain ⟨rfl, rfl⟩ := h
    exact ⟨hnd, hin⟩
  | cons e rest ih =>
    obtain ⟨address, tgid⟩ := e
    intro receivers queues r q h hnd hin
    simp only [loadReceivers] at h
    cases hp : ParseInt tgid with
    | none => simp [hp] at h
    | some i =>
      simp only [hp] at h
      refine ih _ _ r q h (GoMap.nodup_keys_set queues i [] hnd) ?_
      intro id hid
      rw [GoMap.mem_keys_set]
      rcases GoMap.mem_values_set hid with h1 | h1
      · exact Or.inl h1
      · exact Or.inr (hin id h1)

/-- Every address of the raw receivers, and every address routed before the
loop, is routed after the loop. -/
theorem loadReceivers_keys (raw : GoMap String String) :
    ∀ (receivers : Receivers) (queues : Queues) (r : Receivers) (q : Queues),
      loadReceivers raw receivers queues = some (r, q) →
      ∀ a, a ∈ GoMap.keys raw ∨ a ∈ GoMap.keys receivers → a ∈ GoMap.keys r := by
  induction raw with
  | nil =>
    intro receivers queues r q h a ha
    simp only [loadReceivers, Option.some.injEq, Prod.mk.injEq] at h
    obtain ⟨rfl, rfl⟩ := h
    rcases ha with ha | ha
    · simp [GoMap.keys] at ha
    · exact ha
  | cons e rest ih =>
    obtain ⟨address, tgid⟩ := e
    intro receivers queues r q h a ha
    simp only [loadReceivers] at h
    cases hp : ParseInt tgid with
    | none => simp [hp] at h
    | some i =>
      simp only [hp] at h
      apply ih _ _ r q h a
      rw [GoMap.mem_keys_set]
      rcases ha with ha | ha
      · simp only [GoMap.keys, List.map_cons, List.mem_cons] at ha
        rcases ha with ha | ha
        · exact Or.inr (Or.inl ha)
        · exact Or.inl ha
      · exact Or.inr (Or.inr ha)

/-- A start-up that succeeds has found a wildcard with a chat id that is not
the empty string, and has run the loop over the raw receivers to its end. -/
theorem main_some {cfg : Config} {g : Globals} (h : main cfg = some g) :
    GoMap.get cfg.receivers "*" "" ≠ "" ∧
    loadReceivers cfg.receivers [] [] = some (g.receivers, g.queues) := by
  unfold main at h
  split at h
  · exact Option.noConfusion h
  · split at h
    · exact Option.noConfusion h
    · rename_i hw
      refine ⟨hw, ?_⟩
      split at h
      · exact Option.noConfusion h
      · rename_i r q hl
        split at h
        · exact Option.noConfusion h
        · split at h
          · exact Option.noConfusion h
          · split at h
            · exact Option.noConfusion h
            · split at h
              · exact Option.noConfusion h
              · simp only [Option.some.injEq] at h
                subst h
                exact hl

/-- After a start-up that succeeds, the chat id resolved for any sender has a
channel in every queue set with the keys of the one built at start-up. -/
theorem main_resolved_has_queue {cfg : Config} {g : Globals} (h : main cfg = some g)
    (queues : Queues) (hkeys : GoMap.keys queues = GoMap.keys g.queues) (from_ : String) :
    ∃ items, GoMap.get? queues (resolveTgid g.receivers from_) = some items := by
  obtain ⟨hw, hl⟩ := main_some h
  have hinv := loadReceivers_invariant cfg.receivers [] [] g.receivers g.queues hl
    (by simp [GoMap.keys]) (by simp [GoMap.values])
  have hkey : ∀ id ∈ GoMap.values g.receivers, ∃ items, GoMap.get? queues id = some items := by
    intro id hid
    have hmem : id ∈ GoMap.keys queues := hkeys ▸ hinv.2 id hid
    cases hq : GoMap.get? queues id with
    | none => exact absurd hmem ((GoMap.get?_eq_none_iff queues id).1 hq)
    | some items => exact ⟨items, rfl⟩
  have hstar : "*" ∈ GoMap.keys cfg.receivers := by
    by_contra hno
    apply hw
    simp [GoMap.get, (GoMap.get?_eq_none_iff cfg.receivers "*").2 hno]
  have hstar2 : "*" ∈ GoMap.keys g.receivers :=
    loadReceivers_keys cfg.receivers [] [] g.receivers g.queues hl "*" (Or.inl hstar)
  unfold resolveTgid
  simp only
  split
  · cases hs : GoMap.get? g.receivers "*" with
    | none => exact absurd hstar2 ((GoMap.get?_eq_none_iff g.receivers "*").1 hs)
    | some w =>
      have : GoMap.get g.receivers "*" 0 = w := by simp [GoMap.get, hs]
      rw [this]
      exact hkey w (GoMap.mem_values_of_get? hs)
  · rename_i hne
    cases hs : GoMap.get? g.receivers from_ with
    | none => simp [GoMap.get, hs] at hne
    | some i =>
      have : GoMap.get g.receivers from_ 0 = i := by simp [GoMap.get, hs]
      rw [this]
      exact hkey i (GoMap.mem_values_of_get? hs)

/-! ## The routing table -/

/-- C2. For every routing table with a wildcard entry and every sender that is
not a key of the table, the chat id the intake handler resolves for the sender
is the chat id of the wildcard entry. -/
theorem resolveTgid_miss_is_wildcard (receivers : Receivers) (from_ : String) (w : Int)
    (hwild : GoMap.get? receivers "*" = some w)
    (hmiss : from_ ∉ GoMap.keys receivers) :
    resolveTgid receivers from_ = w := by
  have hnone : GoMap.get? receivers from_ = none := (GoMap.get?_eq_none_iff receivers from_).2 hmiss
  simp [resolveTgid, GoMap.get, hnone, hwild]

/-- The routing table resolves a sender that is not in it to the chat id of
the wildcard, here on a table with two entries. -/
theorem resolveTgid_miss_is_wildcard_witness :
    GoMap.get? ([("*", 100), ("boss@example.com", 7)] : Receivers) "*" = some 100 ∧
    "guest@example.com" ∉ GoMap.keys ([("*", 100), ("boss@example.com", 7)] : Receivers) ∧
    resolveTgid [("*", 100), ("boss@example.com", 7)] "guest@example.com" = 100 :=
  ⟨by decide, by decide,
    resolveTgid_miss_is_wildcard [("*", 100), ("boss@example.com", 7)] "guest@example.com" 100
      (by decide) (by decide)⟩

/-- A sender whose entry holds a chat id other than zero resolves to that id. -/
theorem resolveTgid_hit_nonzero (receivers : Receivers) (from_ : String) (i : Int)
    (hhit : GoMap.get? receivers from_ = some i) (hne : i ≠ 0) :
    resolveTgid receivers from_ = i := by
  simp [resolveTgid, GoMap.get, hhit, hne]

/-- C3, evaluated where it fails. The configuration routes `boss@example.com`
to the chat id `0` and the wildcard to `100`; start-up succeeds, the table maps
the sender to `0`, and the intake handler resolves the sender to `100`. -/
theorem resolveTgid_zero_id_goes_to_wildcard :
    (main zeroIdConfig).map
        (fun g => (GoMap.get? g.receivers "boss@example.com",
          resolveTgid g.receivers "boss@example.com")) = some (some 0, 100) := by
  decide

/-! ## The intake handler -/

/-- C9, evaluated where it fails. With an empty recipient list the intake
handler stops with a run-time error at `to[0]`, whatever the sender, the bytes,
the routing table and the queues are. -/
theorem mailHandler_panics_without_recipient (env : Env) (receivers : Receivers)
    (queues : Queues) (from_ : String) (data : List UInt8) :
    (mailHandler env receivers queues from_ [] data).status = .panicked := by
  rfl

/-- With at least one recipient the intake handler has no run-time error. -/
theorem mailHandler_no_panic_with_recipient (env : Env) (receivers : Receivers)
    (queues : Queues) (from_ to0 : String) (rest : List String) (data : List UInt8) :
    (mailHandler env receivers queues from_ (to0 :: rest) data).status ≠ .panicked := by
  simp only [mailHandler]
  split
  · simp
  · split
    · simp
    · split <;> simp

/-- A channel send to a queue that exists and is not full puts the item at
the tail of that queue. -/
theorem chanSend_sent (queues : Queues) (id : Int) (item : QueueItem) (items : List QueueItem)
    (hqueue : GoMap.get? queues id = some items) (hroom : items.length < QueueLength) :
    chanSend queues id item = .sent (GoMap.set queues id (items ++ [item])) := by
  simp [chanSend, hqueue, hroom]

/-- For a transaction that parses to a message with a textual or an image
part, the intake handler returns with the queues its channel send leaves, when
that send goes through. -/
theorem mailHandler_sent (env : Env) (receivers : Receivers) (queues : Queues)
    (from_ to0 : String) (rest : List String) (data : List UInt8) (msg : Message)
    (queues1 : Queues)
    (hparse : env.ParseMessage data = .ok msg)
    (hparts : msg.MessagesContentTypePrefix "text" ≠ [] ∨
      msg.MessagesContentTypePrefix "image" ≠ [])
    (hsend : chanSend queues (resolveTgid receivers (Trim from_ " ><"))
      { from_ := Trim from_ " ><", to_ := Trim to0 " ><" :: rest, msg := msg, data := data }
      = .sent queues1) :
    (mailHandler env receivers queues from_ (to0 :: rest) data).status = .returned ∧
    (mailHandler env receivers queues from_ (to0 :: rest) data).queues = queues1 := by
  have hcond : ¬ ((msg.MessagesContentTypePrefix "text").length = 0 ∧
      (msg.MessagesContentTypePrefix "image").length = 0) := by
    rintro ⟨h1, h2⟩
    rcases hparts with h | h
    · exact h (List.length_eq_zero.1 h1)
    · exact h (List.length_eq_zero.1 h2)
  simp only [mailHandler, hparse, hcond, if_false, hsend]
  exact ⟨trivial, trivial⟩

/-- C5. For every message that parses to zero textual parts and zero image
parts, the intake handler enqueues nothing: the queues after the call are the
queues before it, and the handler is not waiting at a channel send. -/
theorem mailHandler_empty_content_enqueues_nothing (env : Env) (receivers : Receivers)
    (queues : Queues) (from_ : String) (to_ : List String) (data : List UInt8) (msg : Message)
    (hparse : env.ParseMessage data = .ok msg)
    (htext : msg.MessagesContentTypePrefix "text" = [])
    (himage : msg.MessagesContentTypePrefix "image" = []) :
    (mailHandler env receivers queues from_ to_ data).queues = queues ∧
    (mailHandler env receivers queues from_ to_ data).status ≠ .blockedFull ∧
    (mailHandler env receivers queues from_ to_ data).status ≠ .blockedNil := by
  cases to_ with
  | nil => simp [mailHandler]
  | cons to0 rest => simp [mailHandler, hparse, htext, himage]

/-- A message with one part of type `application/pdf` is dropped: the queue of
the wildcard stays empty. -/
theorem mailHandler_empty_content_enqueues_nothing_witness :
    (sampleEnv sampleOtherMessage).ParseMessage [1, 2, 3] = .ok sampleOtherMessage ∧
    sampleOtherMessage.MessagesContentTypePrefix "text" = [] ∧
    sampleOtherMessage.MessagesContentTypePrefix "image" = [] ∧
    (mailHandler (sampleEnv sampleOtherMessage) [("*", 100)] [(100, [])]
      "<a@example.com>" ["<b@example.com>"] [1, 2, 3]).queues = [(100, [])] :=
  ⟨rfl, by decide, by decide,
    (mailHandler_empty_content_enqueues_nothing (sampleEnv sampleOtherMessage) [("*", 100)]
      [(100, [])] "<a@example.com>" ["<b@example.com>"] [1, 2, 3] sampleOtherMessage
      rfl (by decide) (by decide)).1⟩

/-- The enqueue of the intake handler when there is at least one recipient.
For every transaction with at least one recipient whose bytes parse to a
message with a textual part or an image part, and whose resolved queue exists
and is not full, the intake handler returns after appending exactly one work
item to the tail of the resolved queue; the item carries the sender and the
recipients (the sender and the first recipient trimmed of blanks and angle
brackets), the parsed message and the raw bytes. Every other queue is
unchanged, and so is the set of queues. -/
theorem mailHandler_enqueues_one_item (env : Env) (receivers : Receivers) (queues : Queues)
    (from_ to0 : String) (rest : List String) (data : List UInt8) (msg : Message)
    (items : List QueueItem)
    (hparse : env.ParseMessage data = .ok msg)
    (hparts : msg.MessagesContentTypePrefix "text" ≠ [] ∨
      msg.MessagesContentTypePrefix "image" ≠ [])
    (hqueue : GoMap.get? queues (resolveTgid receivers (Trim from_ " ><")) = some items)
    (hroom : items.length < QueueLength) :
    (mailHandler env receivers queues from_ (to0 :: rest) data).status = .returned ∧
    GoMap.get? (mailHandler env receivers queues from_ (to0 :: rest) data).queues
        (resolveTgid receivers (Trim from_ " ><"))
      = some (items ++ [{ from_ := Trim from_ " ><", to_ := Trim to0 " ><" :: rest,
                          msg := msg, data := data }]) ∧
    (∀ id, id ≠ resolveTgid receivers (Trim from_ " ><") →
      GoMap.get? (mailHandler env receivers queues from_ (to0 :: rest) data).queues id
        = GoMap.get? queues id) ∧
    GoMap.keys (mailHandler env receivers queues from_ (to0 :: rest) data).queues
      = GoMap.keys queues := by
  have hmem : resolveTgid receivers (Trim from_ " ><") ∈ GoMap.keys queues := by
    by_contra hno
    rw [(GoMap.get?_eq_none_iff queues _).2 hno] at hqueue
    exact Option.noConfusion hqueue
  have hsent := mailHandler_sent env receivers queues from_ to0 rest data msg _ hparse hparts
    (chanSend_sent queues _ _ items hqueue hroom)
  rw [hsent.2]
  refine ⟨hsent.1, GoMap.get?_set_self _ _ _, ?_, GoMap.keys_set_of_mem _ _ _ hmem⟩
  intro id hid
  exact GoMap.get?_set_ne _ _ (Ne.symm hid)

/-- A text message from an unknown sender goes to the tail of the queue of the
wildcard; the other queue stays as it was. -/
theorem mailHandler_enqueues_one_item_witness :
    (mailHandler (sampleEnv sampleTextMessage) [("*", 100), ("boss@example.com", 7)]
      [(100, []), (7, [])] "<a@example.com>" ["<b@example.com>", "c@example.com"]
      [1, 2, 3]).status = .returned ∧
    GoMap.get? (mailHandler (sampleEnv sampleTextMessage) [("*", 100), ("boss@example.com", 7)]
      [(100, []), (7, [])] "<a@example.com>" ["<b@example.com>", "c@example.com"]
      [1, 2, 3]).queues 100
    = some [{ from_ := "a@example.com", to_ := ["b@example.com", "c@example.com"],
              msg := sampleTextMessage, data := [1, 2, 3] }] ∧
    GoMap.get? (mailHandler (sampleEnv sampleTextMessage) [("*", 100), ("boss@example.com", 7)]
      [(100, []), (7, [])] "<a@example.com>" ["<b@example.com>", "c@example.com"]
      [1, 2, 3]).queues 7 = some [] := by
  have h := mailHandler_enqueues_one_item (sampleEnv sampleTextMessage)
    [("*", 100), ("boss@example.com", 7)] [(100, []), (7, [])] "<a@example.com>"
    "<b@example.com>" ["c@example.com"] [1, 2, 3] sampleTextMessage []
    rfl (Or.inl (by decide)) (by decide) (by decide)
  exact ⟨h.1, h.2.1, h.2.2.1 7 (by decide)⟩

/-- C4, evaluated where it fails. The transaction has an empty recipient
list; its bytes parse to a message with a textual part, and the queue of the
resolved chat id `100` exists and is empty, so every condition of the claim
holds. The intake handler stops with the run-time error at `to[0]` and appends
nothing: the queue of `100` is as empty after the call as before it. -/
theorem mailHandler_enqueues_nothing_without_recipient :
    (sampleEnv sampleTextMessage).ParseMessage [1, 2, 3] = .ok sampleTextMessage ∧
    sampleTextMessage.MessagesContentTypePrefix "text" ≠ [] ∧
    resolveTgid [("*", 100)] (Trim "a@example.com" " ><") = 100 ∧
    GoMap.get? ([(100, [])] : Queues) 100 = some [] ∧
    (mailHandler (sampleEnv sampleTextMessage) [("*", 100)] [(100, [])]
      "a@example.com" [] [1, 2, 3]).status = .panicked ∧
    (mailHandler (sampleEnv sampleTextMessage) [("*", 100)] [(100, [])]
      "a@example.com" [] [1, 2, 3]).queues = [(100, [])] :=
  ⟨rfl, by decide, by decide, by decide, by decide, by decide⟩

/-! ## Delivery -/

/-- The loop over the images submits the upload of every part whose content
disposition parses, in part order, whatever the uploads return; it touches
neither the queues nor the history nor the counter. -/
theorem sendImages_spec (env : Env) (id : Int) (images : List Part) :
    ∀ st : LoopState,
      (sendImages env id images st).calls = st.calls ++ images.filterMap (uploadOf id) ∧
      (sendImages env id images st).queues = st.queues ∧
      (sendImages env id images st).dequeued = st.dequeued ∧
      (sendImages env id images st).queueLength = st.queueLength := by
  induction images with
  | nil => intro st; simp [sendImages]
  | cons part rest ih =>
    intro st
    cases hcd : part.contentDisposition with
    | error e =>
      simp only [sendImages, hcd]
      have := ih (st.printf ("[ERROR]: content disposition parse: \x27" ++ e ++ "\x27"))
      simpa [LoopState.printf, uploadOf, hcd] using this
    | ok dp =>
      obtain ⟨disp, params⟩ := dp
      simp only [sendImages, hcd, LoopState.call]
      cases hr : env.respond st.calls
          (.sendPhoto id (GoMap.get params "filename" "") part.Body
            (GoMap.get params "filename" "") true) with
      | none =>
        simp only []
        have := ih { st with calls := st.calls ++
          [.sendPhoto id (GoMap.get params "filename" "") part.Body
            (GoMap.get params "filename" "") true] }
        simpa [uploadOf, hcd] using this
      | some e =>
        simp only []
        have := ih (LoopState.printf { st with calls := st.calls ++
          [.sendPhoto id (GoMap.get params "filename" "") part.Body
            (GoMap.get params "filename" "") true] }
          ("[ERROR]: telegram photo send: \x27" ++ e ++ "\x27"))
        simpa [LoopState.printf, uploadOf, hcd] using this

/-- The fallback relay makes one submission when fallback is configured and
none otherwise; it touches neither the queues nor the history nor the
counter. -/
theorem mailFallback_spec (env : Env) (isFallback : Bool) (from_ : String)
    (to_ : List String) (data : List UInt8) (st : LoopState) :
    (mailFallback env isFallback from_ to_ data st).calls
      = st.calls ++ (if isFallback then
          [.sendMail (env.fallbackHost ++ ":" ++ env.fallbackPort) from_ to_ data] else []) ∧
    (mailFallback env isFallback from_ to_ data st).queues = st.queues ∧
    (mailFallback env isFallback from_ to_ data st).dequeued = st.dequeued ∧
    (mailFallback env isFallback from_ to_ data st).queueLength = st.queueLength := by
  cases isFallback with
  | false => simp [mailFallback]
  | true =>
    simp only [mailFallback, LoopState.call, LoopState.printf]
    cases env.respond st.calls
      (.sendMail (env.fallbackHost ++ ":" ++ env.fallbackPort) from_ to_ data) <;> simp

/-- The delivery of an item touches neither the queues nor the history nor
the counter. -/
theorem deliver_frame (env : Env) (isFallback : Bool) (id : Int) (item : QueueItem)
    (st : LoopState) :
    (deliver env isFallback id item st).queues = st.queues ∧
    (deliver env isFallback id item st).dequeued = st.dequeued ∧
    (deliver env isFallback id item st).queueLength = st.queueLength := by
  unfold deliver
  simp only [LoopState.call]
  cases ht : item.msg.MessagesContentTypePrefix "text" with
  | nil =>
    have := sendImages_spec env id (item.msg.MessagesContentTypePrefix "image") st
    exact ⟨this.2.1, this.2.2.1, this.2.2.2⟩
  | cons first more =>
    cases hr : env.respond st.calls (.sendMessage id
        ("*" ++ item.msg.headerGet "Subject" ++ "*\n\n" ++ bytesToString first.Body)
        "Markdown") with
    | none =>
      have := sendImages_spec env id (item.msg.MessagesContentTypePrefix "image")
        { st with calls := st.calls ++ [.sendMessage id
          ("*" ++ item.msg.headerGet "Subject" ++ "*\n\n" ++ bytesToString first.Body)
          "Markdown"] }
      simp only [hr]
      exact ⟨this.2.1, this.2.2.1, this.2.2.2⟩
    | some e =>
      have := mailFallback_spec env isFallback item.from_ item.to_ item.data
        (LoopState.printf { st with calls := st.calls ++ [.sendMessage id
          ("*" ++ item.msg.headerGet "Subject" ++ "*\n\n" ++ bytesToString first.Body)
          "Markdown"] }
          ("[ERROR]: telegram message send: \x27" ++ e ++ "\x27"))
      simp only [hr]
      exact ⟨this.2.1, this.2.2.1, this.2.2.2⟩

/-- The calls of a delivery whose text post, if there is one, succeeds: the
text post and then the uploads. -/
theorem deliver_calls_of_text_ok (env : Env) (isFallback : Bool) (id : Int) (item : QueueItem)
    (st : LoopState)
    (htext : ∀ c, textPost id item = some c → env.respond st.calls c = none) :
    (deliver env isFallback id item st).calls
      = st.calls ++ (textPost id item).toList
        ++ (item.msg.MessagesContentTypePrefix "image").filterMap (uploadOf id) := by
  unfold deliver
  simp only [LoopState.call]
  cases ht : item.msg.MessagesContentTypePrefix "text" with
  | nil =>
    simp only [textPost, ht, Option.toList, List.append_nil]
    exact (sendImages_spec env id _ st).1
  | cons first more =>
    have hok := htext (.sendMessage id
      ("*" ++ item.msg.headerGet "Subject" ++ "*\n\n" ++ bytesToString first.Body) "Markdown")
      (by simp only [textPost, ht])
    simp only [hok, textPost, ht, Option.toList]
    exact (sendImages_spec env id _ _).1

/-- The calls of a delivery whose text post fails: the text post and then the
relay submission when fallback is configured. -/
theorem deliver_calls_of_text_failed (env : Env) (isFallback : Bool) (id : Int)
    (item : QueueItem) (st : LoopState) (c : Call) (e : String)
    (hpost : textPost id item = some c) (hfail : env.respond st.calls c = some e) :
    (deliver env isFallback id item st).calls
      = st.calls ++ [c] ++ (if isFallback then
          [.sendMail (env.fallbackHost ++ ":" ++ env.fallbackPort)
            item.from_ item.to_ item.data] else []) := by
  unfold deliver
  simp only [LoopState.call]
  cases ht : item.msg.MessagesContentTypePrefix "text" with
  | nil => simp [textPost, ht] at hpost
  | cons first more =>
    simp only [textPost, ht, Option.some.injEq] at hpost
    subst hpost
    simp only [hfail]
    exact (mailFallback_spec env isFallback item.from_ item.to_ item.data _).1

/-- A visit of a queue with an item at its head delivers that item. -/
theorem handleEntry_cons (env : Env) (isFallback : Bool) (st : LoopState) (id : Int)
    (item : QueueItem) (rest : List QueueItem)
    (hhead : GoMap.get? st.queues id = some (item :: rest)) :
    handleEntry env isFallback st id
      = deliver env isFallback id item
          { st with
            queues := GoMap.set st.queues id rest
            queueLength := st.queueLength + rest.length
            dequeued := st.dequeued ++ [(id, item)] } := by
  simp only [handleEntry, hhead]

/-- A text post is not a relay submission, and neither is an upload. -/
theorem sendMail_not_posted (id : Int) (item : QueueItem) (images : List Part)
    (addr f : String) (t : List String) (d : List UInt8)
    (h : Call.sendMail addr f t d ∈ (textPost id item).toList ++ images.filterMap (uploadOf id)) :
    False := by
  rcases List.mem_append.1 h with h | h
  · unfold textPost at h
    split at h <;> simp at h
  · obtain ⟨part, _, hp⟩ := List.mem_filterMap.1 h
    unfold uploadOf at hp
    split at hp <;> simp at hp

/-- C1, as amended. For every transaction with at least one recipient that the
intake handler enqueues and whose message has a textual part: the work item
carries the raw bytes as handed over, the sender trimmed of blanks and angle
brackets, and the recipients with the first one trimmed in the same way; and
when the drain loop receives that item, the text post fails and fallback is
configured, the drain loop makes the text post and then exactly one relay
submission, with that sender, those recipients and those bytes, and submits no
image. -/
theorem text_failure_relays_normalised_envelope (env : Env) (receivers : Receivers)
    (queues : Queues) (from_ to0 : String) (rest : List String) (data : List UInt8)
    (msg : Message) (items : List QueueItem) (first : Part) (more : List Part)
    (st : LoopState) (id : Int) (behind : List QueueItem) (e : String)
    (hparse : env.ParseMessage data = .ok msg)
    (htext : msg.MessagesContentTypePrefix "text" = first :: more)
    (hqueue : GoMap.get? queues (resolveTgid receivers (Trim from_ " ><")) = some items)
    (hroom : items.length < QueueLength)
    (hhead : GoMap.get? st.queues id
      = some ({ from_ := Trim from_ " ><", to_ := Trim to0 " ><" :: rest,
                msg := msg, data := data } :: behind))
    (hfail : env.respond st.calls (.sendMessage id
      ("*" ++ msg.headerGet "Subject" ++ "*\n\n" ++ bytesToString first.Body) "Markdown")
      = some e) :
    GoMap.get? (mailHandler env receivers queues from_ (to0 :: rest) data).queues
        (resolveTgid receivers (Trim from_ " ><"))
      = some (items ++ [{ from_ := Trim from_ " ><", to_ := Trim to0 " ><" :: rest,
                          msg := msg, data := data }]) ∧
    (handleEntry env true st id).calls
      = st.calls ++
        [.sendMessage id
          ("*" ++ msg.headerGet "Subject" ++ "*\n\n" ++ bytesToString first.Body) "Markdown",
         .sendMail (env.fallbackHost ++ ":" ++ env.fallbackPort)
          (Trim from_ " ><") (Trim to0 " ><" :: rest) data] := by
  have hsent := mailHandler_sent env receivers queues from_ to0 rest data msg _ hparse
    (Or.inl (by simp [htext])) (chanSend_sent queues _ _ items hqueue hroom)
  refine ⟨by rw [hsent.2]; exact GoMap.get?_set_self _ _ _, ?_⟩
  rw [handleEntry_cons env true st id _ behind hhead]
  have hpost : textPost id (⟨Trim from_ " ><", Trim to0 " ><" :: rest, msg, data⟩ : QueueItem)
      = some (.sendMessage id
          ("*" ++ msg.headerGet "Subject" ++ "*\n\n" ++ bytesToString first.Body)
          "Markdown") := by
    simp only [textPost, htext]
  have h := deliver_calls_of_text_failed env true id _
    { st with
      queues := GoMap.set st.queues id behind
      queueLength := st.queueLength + behind.length
      dequeued := st.dequeued ++ [(id, ⟨Trim from_ " ><", Trim to0 " ><" :: rest, msg, data⟩)] }
    _ e hpost hfail
  rw [h]
  simp

/-- The calls of a visit that finds an item whose text post, if there is one,
succeeds: the text post and then the uploads. -/
theorem handleEntry_calls_of_text_ok (env : Env) (isFallback : Bool)
    (st : LoopState) (id : Int) (item : QueueItem) (behind : List QueueItem)
    (hhead : GoMap.get? st.queues id = some (item :: behind))
    (htext : ∀ c, textPost id item = some c → env.respond st.calls c = none) :
    (handleEntry env isFallback st id).calls
      = st.calls ++ (textPost id item).toList
        ++ (item.msg.MessagesContentTypePrefix "image").filterMap (uploadOf id) := by
  rw [handleEntry_cons env isFallback st id item behind hhead]
  exact deliver_calls_of_text_ok env isFallback id item _ htext

/-- C6. For every work item at the head of its queue whose text post succeeds,
or that has no textual part, the drain loop submits the text post (if any) and
then the upload of every image part whose content disposition parses, in part
order, whatever any of the uploads returns; and it makes no relay
submission. -/
theorem handleEntry_image_failures_are_local (env : Env) (isFallback : Bool)
    (st : LoopState) (id : Int) (item : QueueItem) (behind : List QueueItem)
    (hhead : GoMap.get? st.queues id = some (item :: behind))
    (htext : ∀ c, textPost id item = some c → env.respond st.calls c = none) :
    (handleEntry env isFallback st id).calls
      = st.calls ++ (textPost id item).toList
        ++ (item.msg.MessagesContentTypePrefix "image").filterMap (uploadOf id) ∧
    ∀ addr f t d, Call.sendMail addr f t d ∈ (handleEntry env isFallback st id).calls →
      Call.sendMail addr f t d ∈ st.calls := by
  have hcalls := handleEntry_calls_of_text_ok env isFallback st id item behind hhead htext
  refine ⟨hcalls, ?_⟩
  intro addr f t d hmem
  rw [hcalls, List.append_assoc] at hmem
  rcases List.mem_append.1 hmem with h | h
  · exact h
  · exact (sendMail_not_posted id item _ addr f t d h).elim

/-- Every upload fails, and the first image has a content disposition that
does not parse: the text post and the two other uploads are submitted, in part
order, and nothing is relayed although fallback is configured. -/
theorem handleEntry_image_failures_are_local_witness :
    (handleEntry (photoFailsEnv textAndImagesMessage) true
      (freshLoop [(100, [sampleItem textAndImagesMessage])]) 100).calls
    = [.sendMessage 100 "*Hi*\n\nthere" "Markdown",
       .sendPhoto 100 "" [1] "" true,
       .sendPhoto 100 "b.png" [2] "b.png" true] :=
  (handleEntry_image_failures_are_local (photoFailsEnv textAndImagesMessage) true
    (freshLoop [(100, [sampleItem textAndImagesMessage])]) 100
    (sampleItem textAndImagesMessage) [] (by decide)
    (by
      intro c hc
      have h2 : some c = some (Call.sendMessage 100 "*Hi*\n\nthere" "Markdown") :=
        hc.symm.trans (by decide)
      cases h2
      rfl)).1.trans (by decide)

/-- C7, as stated, fails. The work item has two image parts, the first with a
content disposition without a file name and the second with the file name
`b.png`. The drain pass submits two uploads, the first of them the image
without a file name, under the empty name; it does not submit the single
upload of the other image. -/
theorem unnamed_image_is_uploaded :
    (handleQueuePass (sampleEnv twoImagesMessage) false [100]
      (freshLoop [(100, [sampleItem twoImagesMessage])]) 0).1.calls
      = [.sendPhoto 100 "" [1] "" true, .sendPhoto 100 "b.png" [2] "b.png" true] ∧
    (handleQueuePass (sampleEnv twoImagesMessage) false [100]
      (freshLoop [(100, [sampleItem twoImagesMessage])]) 0).1.calls
      ≠ [.sendPhoto 100 "b.png" [2] "b.png" true] := by
  decide

/-- C7, as amended. For a work item at the head of its queue whose text post
succeeds or that has no textual part, and that has two image parts, `a` with a
content disposition that parses and has no `filename` parameter and `b` with
one that parses and names the file `f`: the drain loop submits both uploads in
part order, the one of `a` with the empty name and caption and the one of `b`
with name and caption `f`. -/
theorem two_images_both_uploaded (env : Env) (isFallback : Bool) (st : LoopState) (id : Int)
    (item : QueueItem) (behind : List QueueItem) (a b : Part) (da db : String)
    (pa pb : GoMap String String) (f : String)
    (hhead : GoMap.get? st.queues id = some (item :: behind))
    (htext : ∀ c, textPost id item = some c → env.respond st.calls c = none)
    (ha : a.contentDisposition = .ok (da, pa)) (hb : b.contentDisposition = .ok (db, pb))
    (hnone : GoMap.get? pa "filename" = none) (hsome : GoMap.get? pb "filename" = some f) :
    (item.msg.MessagesContentTypePrefix "image" = [a, b] →
      (handleEntry env isFallback st id).calls
        = st.calls ++ (textPost id item).toList
          ++ [.sendPhoto id "" a.Body "" true, .sendPhoto id f b.Body f true]) ∧
    (item.msg.MessagesContentTypePrefix "image" = [b, a] →
      (handleEntry env isFallback st id).calls
        = st.calls ++ (textPost id item).toList
          ++ [.sendPhoto id f b.Body f true, .sendPhoto id "" a.Body "" true]) := by
  have h := handleEntry_calls_of_text_ok env isFallback st id item behind hhead htext
  have hua : uploadOf id a = some (.sendPhoto id "" a.Body "" true) := by
    simp [uploadOf, ha, GoMap.get, hnone]
  have hub : uploadOf id b = some (.sendPhoto id f b.Body f true) := by
    simp [uploadOf, hb, GoMap.get, hsome]
  constructor
  · intro himages
    rw [h, himages]
    simp [List.filterMap_cons, hua, hub]
  · intro himages
    rw [h, himages]
    simp [List.filterMap_cons, hua, hub]

/-- Two image parts, the first without a file name: both are uploaded. -/
theorem two_images_both_uploaded_witness :
    (handleEntry (sampleEnv twoImagesMessage) false
      (freshLoop [(100, [sampleItem twoImagesMessage])]) 100).calls
    = [.sendPhoto 100 "" [1] "" true, .sendPhoto 100 "b.png" [2] "b.png" true] :=
  (two_images_both_uploaded (sampleEnv twoImagesMessage) false
    (freshLoop [(100, [sampleItem twoImagesMessage])]) 100 (sampleItem twoImagesMessage) []
    unnamedImage namedImage "inline" "attachment" [] [("filename", "b.png")] "b.png"
    (by decide)
    (by
      intro c hc
      have h2 : some c = none := hc.symm.trans (by decide)
      cases h2)
    rfl rfl (by decide) (by decide)).1 (by decide)

/-- The handed sender has angle brackets around it: the relay submission
carries the sender without them. -/
theorem text_failure_relays_normalised_envelope_witness :
    (handleEntry (textFailsEnv sampleTextMessage) true
      (freshLoop [(100, [{ from_ := "alice@example.com", to_ := ["bob@example.com"],
                           msg := sampleTextMessage, data := [1, 2, 3] }])]) 100).calls
    = [.sendMessage 100 "*Hi*\n\nthere" "Markdown",
       .sendMail "relay.example:25" "alice@example.com" ["bob@example.com"] [1, 2, 3]] :=
  (text_failure_relays_normalised_envelope (textFailsEnv sampleTextMessage) [("*", 100)]
    [(100, [])] "<alice@example.com>" "<bob@example.com>" [] [1, 2, 3] sampleTextMessage []
    { contentType := "text/plain", Body := [116, 104, 101, 114, 101],
      contentDisposition := .error "no content disposition" } []
    (freshLoop [(100, [{ from_ := "alice@example.com", to_ := ["bob@example.com"],
                         msg := sampleTextMessage, data := [1, 2, 3] }])])
    100 [] "Bad Gateway" rfl (by decide) (by decide) (by decide) (by decide) rfl).2.trans
    (by decide)

/-- C1, as stated, fails. The mail-transfer layer hands over the sender
`<alice@example.com>` and the recipient `<bob@example.com>`; the message has a
textual part, the text post fails and fallback is configured. The drain pass
makes one relay submission, whose sender is `alice@example.com` and whose
recipient is `bob@example.com`: the submission with the sender and the
recipient as handed over is not made. -/
theorem relay_envelope_is_not_the_handed_one :
    (handleQueuePass (textFailsEnv sampleTextMessage) true [100]
      (freshLoop (mailHandler (textFailsEnv sampleTextMessage) [("*", 100)] [(100, [])]
        "<alice@example.com>" ["<bob@example.com>"] [1, 2, 3]).queues) 0).1.calls
      = [.sendMessage 100 "*Hi*\n\nthere" "Markdown",
         .sendMail "relay.example:25" "alice@example.com" ["bob@example.com"] [1, 2, 3]] ∧
    Call.sendMail "relay.example:25" "<alice@example.com>" ["<bob@example.com>"] [1, 2, 3]
      ∉ (handleQueuePass (textFailsEnv sampleTextMessage) true [100]
          (freshLoop (mailHandler (textFailsEnv sampleTextMessage) [("*", 100)] [(100, [])]
            "<alice@example.com>" ["<bob@example.com>"] [1, 2, 3]).queues) 0).1.calls := by
  decide

/-! ## Order of delivery -/

theorem itemsFor_append_singleton (id id1 : Int) (h : List (Int × QueueItem)) (x : QueueItem) :
    itemsFor id (h ++ [(id1, x)]) = itemsFor id h ++ (if id1 = id then [x] else []) := by
  by_cases hid : id1 = id <;> simp [itemsFor, List.filter_append, List.filter_cons, hid]

/-- A visit of the queue of `id`: the queue loses its oldest item, if it has
one, and that item joins the history of `id`. -/
theorem handleEntry_self (env : Env) (isFallback : Bool) (st : LoopState) (id : Int)
    (q : List QueueItem) (hq : GoMap.get? st.queues id = some q) :
    GoMap.get? (handleEntry env isFallback st id).queues id = some (q.drop 1) ∧
    itemsFor id (handleEntry env isFallback st id).dequeued
      = itemsFor id st.dequeued ++ q.take 1 := by
  cases q with
  | nil => simp [handleEntry, hq]
  | cons item rest =>
    rw [handleEntry_cons env isFallback st id item rest hq]
    have hf := deliver_frame env isFallback id item
      { st with
        queues := GoMap.set st.queues id rest
        queueLength := st.queueLength + rest.length
        dequeued := st.dequeued ++ [(id, item)] }
    rw [hf.1, hf.2.1]
    simp [GoMap.get?_set_self, itemsFor_append_singleton]

/-- A visit of the queue of `id1` leaves the queue and the history of every
other id as they are. -/
theorem handleEntry_other (env : Env) (isFallback : Bool) (st : LoopState) (id id1 : Int)
    (hne : id1 ≠ id) :
    GoMap.get? (handleEntry env isFallback st id1).queues id = GoMap.get? st.queues id ∧
    itemsFor id (handleEntry env isFallback st id1).dequeued = itemsFor id st.dequeued := by
  cases hq : GoMap.get? st.queues id1 with
  | none => simp [handleEntry, hq]
  | some q =>
    cases q with
    | nil => simp [handleEntry, hq]
    | cons item rest =>
      rw [handleEntry_cons env isFallback st id1 item rest hq]
      have hf := deliver_frame env isFallback id1 item
        { st with
          queues := GoMap.set st.queues id1 rest
          queueLength := st.queueLength + rest.length
          dequeued := st.dequeued ++ [(id1, item)] }
      rw [hf.1, hf.2.1]
      simp [GoMap.get?_set_ne _ _ hne, itemsFor_append_singleton, hne]

/-- Visits of queues other than the one of `id` leave it and its history as
they are. -/
theorem foldl_handleEntry_not_mem (env : Env) (isFallback : Bool) (id : Int) (order : List Int) :
    ∀ st : LoopState, id ∉ order →
      GoMap.get? (order.foldl (handleEntry env isFallback) st).queues id
        = GoMap.get? st.queues id ∧
      itemsFor id (order.foldl (handleEntry env isFallback) st).dequeued
        = itemsFor id st.dequeued := by
  induction order with
  | nil => intro st _; simp
  | cons x xs ih =>
    intro st hmem
    have hx : x ≠ id := fun h => hmem (by simp [h])
    have hxs : id ∉ xs := fun h => hmem (by simp [h])
    have h1 := handleEntry_other env isFallback st id x hx
    have h2 := ih (handleEntry env isFallback st x) hxs
    simp only [List.foldl_cons]
    exact ⟨h2.1.trans h1.1, h2.2.trans h1.2⟩

/-- Visits in an order without repetition that contains `id`: the queue of
`id` loses its oldest item, if it has one, and that item joins the history. -/
theorem foldl_handleEntry_mem (env : Env) (isFallback : Bool) (id : Int) (order : List Int) :
    ∀ (st : LoopState) (q : List QueueItem), order.Nodup → id ∈ order →
      GoMap.get? st.queues id = some q →
      GoMap.get? (order.foldl (handleEntry env isFallback) st).queues id = some (q.drop 1) ∧
      itemsFor id (order.foldl (handleEntry env isFallback) st).dequeued
        = itemsFor id st.dequeued ++ q.take 1 := by
  induction order with
  | nil => intro st q _ hmem; simp at hmem
  | cons x xs ih =>
    intro st q hnd hmem hq
    have hnd2 := List.nodup_cons.1 hnd
    simp only [List.foldl_cons]
    by_cases hx : x = id
    · subst hx
      have h1 := handleEntry_self env isFallback st x q hq
      have h2 := foldl_handleEntry_not_mem env isFallback x xs
        (handleEntry env isFallback st x) hnd2.1
      exact ⟨h2.1.trans h1.1, h2.2.trans h1.2⟩
    · have hxs : id ∈ xs := by
        rcases List.mem_cons.1 hmem with h | h
        · exact absurd h.symm hx
        · exact h
      have h1 := handleEntry_other env isFallback st id x hx
      have h2 := ih (handleEntry env isFallback st x) q hnd2.2 hxs (h1.1.trans hq)
      exact ⟨h2.1, h2.2.trans (by rw [h1.2])⟩

/-- A visit moves the oldest item of the visited queue to the history, and
nothing else: history followed by queue is the same list before and after. -/
theorem handleEntry_history (env : Env) (isFallback : Bool) (st : LoopState) (id id1 : Int) :
    itemsFor id (handleEntry env isFallback st id1).dequeued
        ++ queueOf (handleEntry env isFallback st id1).queues id
      = itemsFor id st.dequeued ++ queueOf st.queues id := by
  by_cases hne : id1 = id
  · subst hne
    cases hq : GoMap.get? st.queues id1 with
    | none => simp [handleEntry, hq]
    | some q =>
      have h := handleEntry_self env isFallback st id1 q hq
      simp only [queueOf, GoMap.get, h.1, h.2, hq, Option.getD_some, List.append_assoc,
        List.take_append_drop]
  · have h := handleEntry_other env isFallback st id id1 hne
    simp only [queueOf, GoMap.get, h.1, h.2]

theorem foldl_handleEntry_history (env : Env) (isFallback : Bool) (id : Int)
    (order : List Int) :
    ∀ st : LoopState,
      itemsFor id (order.foldl (handleEntry env isFallback) st).dequeued
          ++ queueOf (order.foldl (handleEntry env isFallback) st).queues id
        = itemsFor id st.dequeued ++ queueOf st.queues id := by
  induction order with
  | nil => intro st; rfl
  | cons x xs ih =>
    intro st
    simp only [List.foldl_cons]
    rw [ih, handleEntry_history]

/-- The queues and the history after a pass are those after the visits. -/
theorem handleQueuePass_frame (env : Env) (isFallback : Bool) (order : List Int)
    (st : LoopState) (prev : Nat) :
    (handleQueuePass env isFallback order st prev).1.queues
      = (order.foldl (handleEntry env isFallback) { st with queueLength := 0 }).queues ∧
    (handleQueuePass env isFallback order st prev).1.dequeued
      = (order.foldl (handleEntry env isFallback) { st with queueLength := 0 }).dequeued := by
  unfold handleQueuePass
  simp only
  split <;> simp [LoopState.printf]

/-- One step of a run keeps the account of every chat id: what was received
from its queue, followed by what is in the queue, is what was there at the
start followed by what arrived. -/
theorem step_history (env : Env) (isFallback : Bool) (id : Int) (base : List QueueItem)
    (sys : Sys) (s : Step)
    (h : itemsFor id sys.loop.dequeued ++ queueOf sys.loop.queues id
      = base ++ itemsFor id sys.arrived) :
    itemsFor id (sys.step env isFallback s).loop.dequeued
        ++ queueOf (sys.step env isFallback s).loop.queues id
      = base ++ itemsFor id (sys.step env isFallback s).arrived := by
  cases s with
  | pass order =>
    have hf := handleQueuePass_frame env isFallback order sys.loop sys.prev
    simp only [Sys.step]
    rw [hf.1, hf.2, foldl_handleEntry_history]
    exact h
  | send id1 item =>
    simp only [Sys.step, chanSend]
    cases hq : GoMap.get? sys.loop.queues id1 with
    | none => simpa using h
    | some items =>
      by_cases hroom : items.length < QueueLength
      · simp only [hroom, if_true, itemsFor_append_singleton]
        by_cases hid : id1 = id
        · subst hid
          have hq2 : queueOf sys.loop.queues id1 = items := by simp [queueOf, GoMap.get, hq]
          rw [hq2] at h
          simp only [queueOf, GoMap.get, GoMap.get?_set_self, Option.getD_some, if_true]
          rw [← List.append_assoc, h, List.append_assoc]
        · have hq2 : queueOf (GoMap.set sys.loop.queues id1 (items ++ [item])) id
              = queueOf sys.loop.queues id := by
            simp [queueOf, GoMap.get, GoMap.get?_set_ne _ _ hid]
          simp only [hid, if_false, List.append_nil]
          rw [hq2]
          exact h
      · simpa [hroom] using h

theorem run_history (env : Env) (isFallback : Bool) (id : Int) (base : List QueueItem)
    (steps : List Step) :
    ∀ sys : Sys,
      itemsFor id sys.loop.dequeued ++ queueOf sys.loop.queues id
        = base ++ itemsFor id sys.arrived →
      itemsFor id (sys.run env isFallback steps).loop.dequeued
          ++ queueOf (sys.run env isFallback steps).loop.queues id
        = base ++ itemsFor id (sys.run env isFallback steps).arrived := by
  induction steps with
  | nil => intro sys h; exact h
  | cons s rest ih =>
    intro sys h
    exact ih (sys.step env isFallback s) (step_history env isFallback id base sys s h)

/-- C8. In one drain pass, which visits every queue once in some order, every
queue loses no item if it is empty and otherwise exactly its oldest item, and
that item is the one handed to delivery for its chat id. Hence, in every run
of channel sends and drain passes, for every chat id the items handed to
delivery so far, followed by the items still in the queue, are the items that
were in the queue at the start followed by the items sent to it, in the order
of the sends: delivery is in the order of the enqueues. -/
theorem drain_pass_takes_oldest (env : Env) (isFallback : Bool) (order : List Int)
    (st : LoopState) (prev : Nat)
    (hperm : order.Perm (GoMap.keys st.queues))
    (hnodup : (GoMap.keys st.queues).Nodup) :
    (∀ id q, GoMap.get? st.queues id = some q →
      GoMap.get? (handleQueuePass env isFallback order st prev).1.queues id = some (q.drop 1) ∧
      itemsFor id (handleQueuePass env isFallback order st prev).1.dequeued
        = itemsFor id st.dequeued ++ q.take 1) ∧
    (∀ (steps : List Step) (id : Int),
      itemsFor id
          (Sys.run env isFallback { loop := st, prev := prev, arrived := [] } steps).loop.dequeued
        ++ queueOf
          (Sys.run env isFallback { loop := st, prev := prev, arrived := [] } steps).loop.queues id
      = (itemsFor id st.dequeued ++ queueOf st.queues id)
        ++ itemsFor id
          (Sys.run env isFallback { loop := st, prev := prev, arrived := [] } steps).arrived) := by
  constructor
  · intro id q hq
    have hf := handleQueuePass_frame env isFallback order st prev
    rw [hf.1, hf.2]
    have hmem : id ∈ order := by
      rw [hperm.mem_iff]
      by_contra hno
      rw [(GoMap.get?_eq_none_iff st.queues id).2 hno] at hq
      exact Option.noConfusion hq
    exact foldl_handleEntry_mem env isFallback id order { st with queueLength := 0 } q
      (hperm.nodup_iff.2 hnodup) hmem hq
  · intro steps id
    exact run_history env isFallback id (itemsFor id st.dequeued ++ queueOf st.queues id) steps
      { loop := st, prev := prev, arrived := [] } (by simp [itemsFor])

/-- A pass over two queues, one with two items and one empty, visited in the
order other than the one of the map: the first queue keeps its newer item, the
older one is handed to delivery, and the empty queue stays empty. -/
theorem drain_pass_takes_oldest_witness :
    (GoMap.get? (handleQueuePass (sampleEnv sampleTextMessage) false [7, 100]
        (freshLoop [(100, [olderItem, newerItem]), (7, [])]) 0).1.queues 100
      = some [newerItem] ∧
    itemsFor 100 (handleQueuePass (sampleEnv sampleTextMessage) false [7, 100]
        (freshLoop [(100, [olderItem, newerItem]), (7, [])]) 0).1.dequeued
      = [olderItem]) ∧
    GoMap.get? (handleQueuePass (sampleEnv sampleTextMessage) false [7, 100]
        (freshLoop [(100, [olderItem, newerItem]), (7, [])]) 0).1.queues 7
      = some [] :=
  ⟨(drain_pass_takes_oldest (sampleEnv sampleTextMessage) false [7, 100]
      (freshLoop [(100, [olderItem, newerItem]), (7, [])]) 0
      (List.Perm.swap 100 7 []) (by decide)).1 100 [olderItem, newerItem] (by decide),
   ((drain_pass_takes_oldest (sampleEnv sampleTextMessage) false [7, 100]
      (freshLoop [(100, [olderItem, newerItem]), (7, [])]) 0
      (List.Perm.swap 100 7 []) (by decide)).1 7 [] (by decide)).1⟩

/-! ## The queue set after start-up -/

/-- C10. After a start-up that succeeds, the queue set holds exactly one queue
for every chat id that occurs in the routing table; so for every sender the
chat id the intake handler resolves has a queue, and the channel send of the
intake handler never finds the queue missing, in the queue set built at
start-up and in every later one (which has the same chat ids). -/
theorem main_one_queue_per_destination (cfg : Config) (g : Globals)
    (h : main cfg = some g) :
    (∀ id ∈ GoMap.values g.receivers, (GoMap.keys g.queues).count id = 1) ∧
    (∀ from_, ∃ items, GoMap.get? g.queues (resolveTgid g.receivers from_) = some items) ∧
    (∀ (env : Env) (queues : Queues) (from_ : String) (to_ : List String) (data : List UInt8),
      GoMap.keys queues = GoMap.keys g.queues →
      (mailHandler env g.receivers queues from_ to_ data).status ≠ .blockedNil) := by
  obtain ⟨_, hl⟩ := main_some h
  have hinv := loadReceivers_invariant cfg.receivers [] [] g.receivers g.queues hl
    (by simp [GoMap.keys]) (by simp [GoMap.values])
  refine ⟨?_, ?_, ?_⟩
  · intro id hid
    exact List.count_eq_one_of_mem hinv.1 (hinv.2 id hid)
  · intro from_
    exact main_resolved_has_queue h g.queues rfl from_
  · intro env queues from_ to_ data hkeys
    obtain ⟨items, hitems⟩ := main_resolved_has_queue h queues hkeys (Trim from_ " ><")
    cases to_ with
    | nil => simp [mailHandler]
    | cons to0 rest =>
      simp only [mailHandler, chanSend, hitems]
      split
      · simp
      · split
        · simp
        · by_cases hroom : items.length < QueueLength <;> simp [hroom]

/-- The start-up on a configuration with two senders routed to the same chat
and a wildcard: two queues, one for each chat id. -/
theorem main_one_queue_per_destination_witness :
    main { zeroIdConfig with
           receivers := [("*", "100"), ("a@example.com", "-7"), ("b@example.com", "-7")] }
      = some { receivers := [("*", 100), ("a@example.com", -7), ("b@example.com", -7)]
               queues := [(100, []), (-7, [])], debug := false, isFallback := false } ∧
    (GoMap.keys ([(100, []), (-7, [])] : Queues)).count (-7) = 1 :=
  ⟨by decide,
    (main_one_queue_per_destination
      { zeroIdConfig with
        receivers := [("*", "100"), ("a@example.com", "-7"), ("b@example.com", "-7")] }
      { receivers := [("*", 100), ("a@example.com", -7), ("b@example.com", -7)]
        queues := [(100, []), (-7, [])], debug := false, isFallback := false }
      (by decide)).1 (-7) (by decide)⟩

end Smtp2tg
